import Mathlib

/-!
Shallow embedding of the location identity / resolution / search layer of
the c3nav repository (files `c3nav/mapdata/models/locations.py` and
`c3nav/site/views.py`), together with theorems settling the frozen claims.

Conventions of the embedding:
* Python numbers are modelled as exact rationals (the spec, section 4.1,
  describes the coordinate division as rational/fixed-point division).
* Django querysets are modelled as Lean lists in store order; `.filter`
  is `List.filter` (order preserving) and `.first()` is `List.head?`.
* The external access-control boundary `filter_queryset_by_package_access`
  is an opaque boolean predicate carried in the environment.
* The external geometry provider is a structure `GeomOps` carrying the
  `area` and `intersection` operations used by `_get_in_areas`.
* String primitives of Python (`str.split`, `str.startswith`, slicing,
  `%d`-formatting, `int()`, case-insensitive containment) are modelled by
  structurally recursive functions on `List Char`, written out explicitly
  so that concrete instances evaluate inside the kernel.
-/

namespace C3nav

/-! ## Character classes of the coordinate pattern -/

/-- Character class `[a-z0-9-_]` of the level-name capture group of the
coordinate pattern in `get_location`. -/
def isLevelChar (c : Char) : Bool :=
  ('a' ≤ c && c ≤ 'z') || ('0' ≤ c && c ≤ '9') || c = '-' || c = '_'

/-- Character class `[0-9]` of the two coordinate capture groups. -/
def isDigitChar (c : Char) : Bool :=
  '0' ≤ c && c ≤ '9'

/-! ## Decimal printing and parsing (Python `%d` and `int()`) -/

/-- The decimal digit character for a digit value below ten. -/
def digitChar : ℕ → Char
  | 0 => '0' | 1 => '1' | 2 => '2' | 3 => '3' | 4 => '4'
  | 5 => '5' | 6 => '6' | 7 => '7' | 8 => '8' | _ => '9'

/-- Numeric value of a decimal digit character. -/
def charVal (c : Char) : ℕ := c.toNat - 48

/-- Fuel-indexed decimal printer; the fuel only bounds recursion depth. -/
def natToDecAux : ℕ → ℕ → List Char
  | 0, _ => []
  | fuel + 1, n => if n = 0 then [] else natToDecAux fuel (n / 10) ++ [digitChar (n % 10)]

/-- Decimal representation of a natural number, most significant digit
first; models Python decimal formatting of a non-negative integer. -/
def natToDec (n : ℕ) : List Char :=
  if n = 0 then ['0'] else natToDecAux n n

/-- Decimal representation of an integer; models Python `%d`. -/
def intToDec (i : ℤ) : List Char :=
  if i < 0 then '-' :: natToDec i.natAbs else natToDec i.natAbs

/-- Truncation toward zero; models Python `int()` / `%d` applied to a
numeric value. -/
def truncQ (q : ℚ) : ℤ :=
  if q < 0 then -⌊-q⌋ else ⌊q⌋

/-- Python `%d` formatting of a numeric value. -/
def pyFormatInt (q : ℚ) : String :=
  String.mk (intToDec (truncQ q))

/-- Decimal value of a digit string; models Python `int()` applied to a
string of decimal digits. -/
def decToNat (l : List Char) : ℕ :=
  l.foldl (fun a c => a * 10 + charVal c) 0

/-- Model of Python `int(s)` restricted to the plain unsigned decimal
shape; any other shape is rejected.  (Python `int` also accepts signs and
surrounding whitespace; rejecting those only makes the no-error theorem
about `get_location` stronger.) -/
def pyIntOfString (s : String) : Option ℕ :=
  if s.data ≠ [] ∧ s.data.all isDigitChar then some (decToNat s.data) else none

/-! ## Python string primitives -/

/-- Whether the first list is an initial segment of the second. -/
def leadsWith : List Char → List Char → Bool
  | [], _ => true
  | _ :: _, [] => false
  | c :: cs, d :: ds => c = d && leadsWith cs ds

/-- Python `s.startswith(pre)`. -/
def pyStartswith (s pre : String) : Bool :=
  leadsWith pre.data s.data

/-- Python slicing `s[k:]`. -/
def pyDrop (s : String) (k : ℕ) : String :=
  String.mk (s.data.drop k)

/-- Whether `w` occurs as a contiguous sublist of the second argument. -/
def subOf (w : List Char) : List Char → Bool
  | [] => w.isEmpty
  | c :: t => leadsWith w (c :: t) || subOf w t

/-- Case-insensitive substring test; models the `icontains` lookup used
by `filter_words`. -/
def icontains (s w : String) : Bool :=
  subOf (w.data.map Char.toLower) (s.data.map Char.toLower)

/-- Python `s.split(sep)` helper, accumulating the current field. -/
def splitCharAux (sep : Char) : List Char → List Char → List (List Char)
  | [], acc => [acc.reverse]
  | c :: rest, acc =>
    if c = sep then acc.reverse :: splitCharAux sep rest []
    else splitCharAux sep rest (c :: acc)

/-- Python `s.split(sep)` with an explicit single-character separator:
no collapsing of repeated separators, and the empty string yields one
empty field. -/
def pySplit (s : String) (sep : Char) : List String :=
  (splitCharAux sep s.data []).map String.mk

/-! ## Data model -/

/-- A map level (floor); mirrors the fields of the `Level` model used by
the code under verification. -/
structure Level where
  name : String
  intermediate : Bool := false
deriving DecidableEq

/-- The five location types of `AreaLocation.LOCATION_TYPES`, ordered
coarse to fine. -/
inductive LocationType where
  | level | area | room | roomsegment | poi
deriving DecidableEq

/-- `AreaLocation.LOCATION_TYPES_ORDER`: the tuple of type names in
declaration order. -/
def LOCATION_TYPES_ORDER : List LocationType :=
  [.level, .area, .room, .roomsegment, .poi]

/-- `AreaLocation.get_sort_key`: the index of a location type in
`LOCATION_TYPES_ORDER`. -/
def get_sort_key : LocationType → ℕ
  | .level => 0 | .area => 1 | .room => 2 | .roomsegment => 3 | .poi => 4

/-- An `AreaLocation` row.  The geometry lives in an abstract geometry
type `γ` supplied by the external geometry provider; `titles` holds the
title strings (the values of the multilingual title mapping); `level` is
the name of the level the area lies on. -/
structure AreaLocation (γ : Type) where
  name : String
  titles : List String
  location_type : LocationType
  level : String
  geometry : γ
  can_search : Bool := true
  can_describe : Bool := true
deriving DecidableEq

/-- A `LocationGroup` row. -/
structure LocationGroup where
  name : String
  titles : List String
  can_search : Bool := true
deriving DecidableEq

/-- An ephemeral `PointLocation`: a level together with exact map-unit
coordinates. -/
structure PointLocation where
  level : Level
  x : ℚ
  y : ℚ
deriving DecidableEq

/-- The closed set of location kinds handled by resolution and search. -/
inductive Location (γ : Type) where
  | point : PointLocation → Location γ
  | area : AreaLocation γ → Location γ
  | group : LocationGroup → Location γ
deriving DecidableEq

/-- External geometry provider: polygon area and intersection. -/
structure GeomOps (γ : Type) where
  area : γ → ℚ
  intersection : γ → γ → γ

/-- The request environment: the cached level table (`get_levels_cached`),
the two stores in iteration order, and the access-control boundary
(`filter_queryset_by_package_access`) as opaque predicates. -/
structure Env (γ : Type) where
  levels : String → Option Level
  areas : List (AreaLocation γ)
  groups : List LocationGroup
  areaAccess : AreaLocation γ → Bool
  groupAccess : LocationGroup → Bool

/-- `PointLocation.location_id`: the format string
`c:%s:%d:%d % (level.name, x*100, y*100)`. -/
def PointLocation.location_id (p : PointLocation) : String :=
  "c:" ++ p.level.name ++ ":" ++ pyFormatInt (p.x * 100) ++ ":" ++ pyFormatInt (p.y * 100)

/-! ## Coordinate pattern and location resolution -/

/-- Matcher for the anchored pattern
`c:(?P<level>[a-z0-9-_]+):(?P<x>[0-9]+):(?P<y>[0-9]+)` of `get_location`,
on character lists.  Since the three character classes exclude the
delimiter `:`, the regular expression is unambiguous and its match is
exactly the maximal-munch parse implemented here: capture a maximal run
of level characters, a delimiter, a maximal run of digits, a delimiter,
and a non-empty all-digit remainder. -/
def matchCoordL (l : List Char) : Option (List Char × List Char × List Char) :=
  match l with
  | 'c' :: ':' :: rest =>
    match rest.dropWhile isLevelChar with
    | ':' :: r2 =>
      match r2.dropWhile isDigitChar with
      | ':' :: r3 =>
        if rest.takeWhile isLevelChar ≠ [] ∧ r2.takeWhile isDigitChar ≠ [] ∧
            r3 ≠ [] ∧ r3.all isDigitChar then
          some (rest.takeWhile isLevelChar, r2.takeWhile isDigitChar, r3)
        else none
      | _ => none
    | _ => none
  | _ => none

/-- The coordinate pattern match of `get_location`, returning the three
capture groups. -/
def matchCoord (s : String) : Option (String × String × String) :=
  (matchCoordL s.data).map fun t => (String.mk t.1, String.mk t.2.1, String.mk t.2.2)

/-- `get_location(request, name)` with the numeral conversion made
explicit: the `Except` layer records the (unreachable) possibility of
`int()` failing on a capture group; every other failure mode of the
source returns `None`, which is `Except.ok none` here.  The `g:` branch
filters the group store by exact name and then by package access and
takes the first row; the fallback branch does the same on the area store
with the whole identifier. -/
def get_locationE (env : Env γ) (name : String) : Except Unit (Option (Location γ)) :=
  match matchCoord name with
  | some (lvl, xs, ys) =>
    match env.levels lvl with
    | none => .ok none
    | some level =>
      match pyIntOfString xs, pyIntOfString ys with
      | some x, some y => .ok (some (.point ⟨level, (x : ℚ) / 100, (y : ℚ) / 100⟩))
      | _, _ => .error ()
  | none =>
    if pyStartswith name "g:" then
      .ok ((((env.groups.filter (fun g => g.name = pyDrop name 2)).filter
        env.groupAccess).head?).map .group)
    else
      .ok ((((env.areas.filter (fun a => a.name = name)).filter
        env.areaAccess).head?).map .area)

/-- `get_location` as used by callers: the error case cannot occur. -/
def get_location (env : Env γ) (name : String) : Option (Location γ) :=
  match get_locationE env name with
  | .ok r => r
  | .error _ => none

/-! ## Search -/

/-- `filter_words(queryset, words)`: successive conjunctive filters, one
per word; a row passes a word when the word occurs case-insensitively in
its name (`name__icontains`) or in a title (`titles__icontains`).
Modelled from the spec: the `titles` column is a JSONField whose
serialization (`c3nav.mapdata.fields`, not under `src/`) decides what
`titles__icontains` scans; per the spec a word matches when it is a
substring of some title string. -/
def filter_words (getName : α → String) (getTitles : α → List String)
    (queryset : List α) (words : List String) : List α :=
  words.foldl
    (fun qs word =>
      qs.filter (fun e => icontains (getName e) word
        || (getTitles e).any (fun t => icontains t word)))
    queryset

/-- The tokenization `search.split(' ')[:10]` of `search_location`. -/
def tokenize (search : String) : List String :=
  (pySplit search ' ').take 10

/-- Stable insert for a descending-by-key sort. -/
def insertDescBy (key : α → ℕ) (a : α) : List α → List α
  | [] => [a]
  | b :: l => if key b ≤ key a then a :: b :: l else b :: insertDescBy key a l

/-- Model of Python `sorted(xs, key=key, reverse=True)`: a stable sort
into descending key order (ties keep store order). -/
def sortDescBy (key : α → ℕ) : List α → List α
  | [] => []
  | a :: l => insertDescBy key a (sortDescBy key l)

/-- `search_location(request, search)`.  The source lines
`queryset.exclude(name=location.name)` build a fresh queryset and discard
it (querysets are immutable), so they have no effect on the result and
are omitted here; the filtered stores are the full stores. -/
def search_location (env : Env γ) (search : String) : List (Location γ) :=
  let location := get_location env search
  let results : List (Location γ) := match location with
    | some l => [l]
    | none => []
  let words := tokenize search
  let results := results ++
    (sortDescBy (fun a => get_sort_key a.location_type)
      (filter_words (fun a => a.name) (fun a => a.titles)
        (env.areas.filter env.areaAccess) words)).map .area
  results ++
    ((filter_words (fun g => g.name) (fun g => g.titles)
      (env.groups.filter env.groupAccess) words).take 10).map .group

/-! ## Area containment -/

/-- The per-candidate test of `_get_in_areas`:
`if intersection_area and intersection_area / my_area > 0.99`. -/
def containTest (ia my_area : ℚ) : Bool :=
  decide (ia ≠ 0 ∧ ia / my_area > 99 / 100)

/-- `AreaLocation._get_in_areas`: scan location types strictly coarser
than the area's own, from `reversed(LOCATION_TYPES_ORDER[:i])` (that is,
nearest granularity first), and within each type every store row on the
same level whose intersection with the area passes the containment
test. -/
def _get_in_areas (G : GeomOps γ) (store : List (AreaLocation γ))
    (self : AreaLocation γ) : List (AreaLocation γ) :=
  let my_area := G.area self.geometry
  ((LOCATION_TYPES_ORDER.take (get_sort_key self.location_type)).reverse).flatMap
    (fun lt =>
      (store.filter (fun a => decide (a.location_type = lt ∧ a.level = self.level))).filter
        (fun a => containTest (G.area (G.intersection a.geometry self.geometry)) my_area))

/-- The per-candidate test with the evaluation order of the source made
explicit: Python short-circuits on `intersection_area` being falsy, and
only then divides; `none` marks the division-by-zero error Python would
raise. -/
def containTestChecked (ia my_area : ℚ) : Option Bool :=
  if ia = 0 then some false
  else if my_area = 0 then none
  else some (decide (ia / my_area > 99 / 100))

/-- Filtering through an `Option`-valued predicate; `none` aborts. -/
def filterOpt (p : α → Option Bool) : List α → Option (List α)
  | [] => some []
  | a :: l =>
    match p a, filterOpt p l with
    | some true, some r => some (a :: r)
    | some false, some r => some r
    | _, _ => none

/-- `_get_in_areas` with the division guarded as in the source: the
result is `none` exactly when some candidate would divide by zero. -/
def _get_in_areasChecked (G : GeomOps γ) (store : List (AreaLocation γ))
    (self : AreaLocation γ) : Option (List (AreaLocation γ)) :=
  let my_area := G.area self.geometry
  filterOpt
    (fun a => containTestChecked (G.area (G.intersection a.geometry self.geometry)) my_area)
    (((LOCATION_TYPES_ORDER.take (get_sort_key self.location_type)).reverse).flatMap
      (fun lt =>
        store.filter (fun a => decide (a.location_type = lt ∧ a.level = self.level))))

/-! ## Route constraint translation (`c3nav/site/views.py`) -/

/-- The `ctype_mapping` dict: which directions a setting value allows. -/
def ctype_mapping (value : String) : Option (List String) :=
  if value = "yes" then some ["up", "down"]
  else if value = "up" then some ["up"]
  else if value = "down" then some ["down"]
  else if value = "no" then some []
  else none

/-- The four admissible setting values of a passability toggle. -/
def settingValues : List String := ["yes", "up", "down", "no"]

/-- `get_ctypes(prefix, value)`: the directional tags contributed by one
feature; an unknown value falls back to the dict default `(up, down)`. -/
def get_ctypes (pre value : String) : List String :=
  ((ctype_mapping value).getD ["up", "down"]).map (fun d => pre ++ "_" ++ d)

/-- `reverse_ctypes(ctypes, name)`: recover a feature's setting from tag
membership. -/
def reverse_ctypes (ctypes : List String) (name : String) : String :=
  if (name ++ "_up") ∈ ctypes then
    (if (name ++ "_down") ∈ ctypes then "yes" else "up")
  else
    (if (name ++ "_down") ∈ ctypes then "down" else "no")

/-- The allowed connection-type set built in `main`:
`('',) + get_ctypes('stairs', s) + get_ctypes('escalator', e) +
get_ctypes('elevator', v)`. -/
def allowed_ctypes (stairs escalators elevators : String) : List String :=
  [""] ++ get_ctypes "stairs" stairs ++ get_ctypes "escalator" escalators
    ++ get_ctypes "elevator" elevators

/-! ## Helper lemmas: strings and character lists -/

theorem string_data_append (s t : String) : (s ++ t).data = s.data ++ t.data := by
  cases s; cases t; rfl

theorem string_mk_data (s : String) : String.mk s.data = s := by
  cases s; rfl

theorem string_append_right_inj (a : String) {b c : String} (h : a ++ b = a ++ c) :
    b = c := by
  have hd : a.data ++ b.data = a.data ++ c.data := by
    rw [← string_data_append, ← string_data_append, h]
  have := List.append_cancel_left hd
  calc b = String.mk b.data := (string_mk_data b).symm
    _ = String.mk c.data := by rw [this]
    _ = c := string_mk_data c

theorem takeWhile_append_stop (p : Char → Bool) (l r : List Char) (c : Char)
    (hl : l.all p = true) (hc : p c = false) :
    (l ++ c :: r).takeWhile p = l := by
  induction l with
  | nil => simp [List.takeWhile, hc]
  | cons a l ih =>
    simp only [List.all_cons, Bool.and_eq_true] at hl
    simp [List.takeWhile, hl.1, ih hl.2]

theorem dropWhile_append_stop (p : Char → Bool) (l r : List Char) (c : Char)
    (hl : l.all p = true) (hc : p c = false) :
    (l ++ c :: r).dropWhile p = c :: r := by
  induction l with
  | nil => simp [List.dropWhile, hc]
  | cons a l ih =>
    simp only [List.all_cons, Bool.and_eq_true] at hl
    simp [List.dropWhile, hl.1, ih hl.2]

/-! ## Helper lemmas: decimal printing and parsing -/

theorem charVal_digitChar {d : ℕ} (h : d < 10) : charVal (digitChar d) = d := by
  interval_cases d <;> decide

theorem isDigit_digitChar {d : ℕ} (h : d < 10) : isDigitChar (digitChar d) = true := by
  interval_cases d <;> decide

theorem natToDecAux_all_digit (fuel n : ℕ) :
    (natToDecAux fuel n).all isDigitChar = true := by
  induction fuel generalizing n with
  | zero => rfl
  | succ fuel ih =>
    by_cases h : n = 0
    · simp [natToDecAux, h]
    · simp [natToDecAux, h, List.all_append, ih,
        isDigit_digitChar (Nat.mod_lt n (by norm_num))]

theorem natToDec_all_digit (n : ℕ) : (natToDec n).all isDigitChar = true := by
  by_cases h : n = 0
  · simp [natToDec, h]; rfl
  · simp [natToDec, h, natToDecAux_all_digit]

theorem natToDec_ne_nil (n : ℕ) : natToDec n ≠ [] := by
  by_cases h : n = 0
  · simp [natToDec, h]
  · have hf : ∃ fuel, n = fuel + 1 := ⟨n - 1, by omega⟩
    obtain ⟨fuel, hfe⟩ := hf
    simp [natToDec, h, hfe, natToDecAux, h]

theorem decToNat_aux (fuel n : ℕ) (h : n ≤ fuel) :
    (natToDecAux fuel n).foldl (fun a c => a * 10 + charVal c) 0 = n := by
  induction fuel generalizing n with
  | zero => simp at h; simp [natToDecAux, h]
  | succ fuel ih =>
    by_cases h0 : n = 0
    · simp [natToDecAux, h0]
    · have hdiv : n / 10 ≤ fuel := by
        have : n / 10 < n := Nat.div_lt_self (by omega) (by norm_num)
        omega
      simp only [natToDecAux, h0, if_false, List.foldl_append, ih _ hdiv, List.foldl_cons,
        List.foldl_nil, charVal_digitChar (Nat.mod_lt n (by norm_num))]
      omega

theorem decToNat_natToDec (n : ℕ) : decToNat (natToDec n) = n := by
  by_cases h : n = 0
  · simp [natToDec, h]; rfl
  · simp only [decToNat, natToDec, h, if_false]
    exact decToNat_aux n n le_rfl

/-! ## Helper lemmas: the coordinate matcher -/

theorem matchCoordL_build (lname xs ys : List Char)
    (h1 : lname ≠ []) (h2 : lname.all isLevelChar = true)
    (h3 : xs ≠ []) (h4 : xs.all isDigitChar = true)
    (h5 : ys ≠ []) (h6 : ys.all isDigitChar = true) :
    matchCoordL ('c' :: ':' :: (lname ++ ':' :: (xs ++ ':' :: ys))) = some (lname, xs, ys) := by
  have hlv : isLevelChar ':' = false := by decide
  have hdg : isDigitChar ':' = false := by decide
  simp only [matchCoordL,
    takeWhile_append_stop isLevelChar lname _ ':' h2 hlv,
    dropWhile_append_stop isLevelChar lname _ ':' h2 hlv,
    takeWhile_append_stop isDigitChar xs _ ':' h4 hdg,
    dropWhile_append_stop isDigitChar xs _ ':' h4 hdg]
  simp [h1, h3, h5, h6]

theorem matchCoordL_digits {l lvl xs ys : List Char}
    (h : matchCoordL l = some (lvl, xs, ys)) :
    xs ≠ [] ∧ xs.all isDigitChar = true ∧ ys ≠ [] ∧ ys.all isDigitChar = true := by
  unfold matchCoordL at h
  repeat' split at h
  all_goals try exact Option.noConfusion h
  rename_i hcond
  obtain ⟨hlvl, hxs, hys, hall⟩ := hcond
  injection h with h'
  simp only [Prod.mk.injEq] at h'
  obtain ⟨hL, hX, hY⟩ := h'
  subst hX; subst hY
  exact ⟨hxs, List.all_takeWhile, hys, hall⟩

theorem pyIntOfString_digits {l : List Char} (h1 : l ≠ []) (h2 : l.all isDigitChar = true) :
    pyIntOfString (String.mk l) = some (decToNat l) := by
  simp [pyIntOfString, h1, h2]

/-- C7: location resolution is total and never raises: for every
environment and identifier string, `get_location` reaches a `Location` or
`None` result, never the error case (the only fallible primitive, the
`int()` conversion, is applied to capture groups that the pattern
guarantees to be non-empty digit strings). -/
theorem get_location_never_errors (env : Env γ) (name : String) :
    ∃ r, get_locationE env name = Except.ok r := by
  cases hm : matchCoord name with
  | none =>
    by_cases hg : pyStartswith name "g:" = true
    · exact ⟨_, by simp only [get_locationE, hm]; rw [if_pos hg]⟩
    · exact ⟨_, by simp only [get_locationE, hm]; rw [if_neg hg]⟩
  | some t =>
    obtain ⟨lvl, xs, ys⟩ := t
    obtain ⟨u, hu, heq⟩ : ∃ u, matchCoordL name.data = some u ∧
        (String.mk u.1, String.mk u.2.1, String.mk u.2.2) = (lvl, xs, ys) := by
      unfold matchCoord at hm
      cases hq : matchCoordL name.data with
      | none => rw [hq] at hm; exact absurd hm (by simp)
      | some u => rw [hq] at hm; exact ⟨u, rfl, by injection hm⟩
    obtain ⟨u1, u2, u3⟩ := u
    obtain ⟨hb1, hb2, hb3, hb4⟩ := matchCoordL_digits hu
    simp only [Prod.mk.injEq] at heq
    obtain ⟨hL, hX, hY⟩ := heq
    cases hl : env.levels lvl with
    | none => exact ⟨none, by simp only [get_locationE, hm, hl]⟩
    | some level =>
      have hx : pyIntOfString xs = some (decToNat u2) := by
        rw [← hX]; exact pyIntOfString_digits hb1 hb2
      have hy : pyIntOfString ys = some (decToNat u3) := by
        rw [← hY]; exact pyIntOfString_digits hb3 hb4
      exact ⟨_, by simp only [get_locationE, hm, hl, hx, hy]; rfl⟩

/-! ## Claim C1: coordinate identifiers round-trip -/

theorem pyFormatInt_natCast (n : ℕ) : pyFormatInt (n : ℚ) = String.mk (natToDec n) := by
  have h1 : ¬((n : ℚ) < 0) := not_lt.mpr (Nat.cast_nonneg n)
  simp [pyFormatInt, truncQ, h1, intToDec, Int.floor_natCast,
    not_lt.mpr (Int.natCast_nonneg n)]

theorem location_id_data (level : Level) (x y : ℚ) :
    (PointLocation.location_id ⟨level, x, y⟩).data =
      'c' :: ':' :: (level.name.data ++ ':' ::
        ((pyFormatInt (x * 100)).data ++ ':' :: (pyFormatInt (y * 100)).data)) := by
  show ("c:" ++ level.name ++ ":" ++ pyFormatInt (x * 100) ++ ":"
      ++ pyFormatInt (y * 100)).data = _
  simp [string_data_append]

/-- C1: for every level present in the cached level table (whose name,
per the spec's identifier grammar, is a non-empty `[a-z0-9-_]` string)
and all non-negative integer raw coordinates, resolving the identifier
produced by `PointLocation.location_id` for the point
`(level, x_raw/100, y_raw/100)` yields back a `PointLocation` with the
same level and the same coordinate pair. -/
theorem coord_roundtrip (env : Env γ) (level : Level) (x_raw y_raw : ℕ)
    (hne : level.name.data ≠ []) (hwf : level.name.data.all isLevelChar = true)
    (hlev : env.levels level.name = some level) :
    get_location env (PointLocation.location_id ⟨level, (x_raw : ℚ) / 100, (y_raw : ℚ) / 100⟩)
      = some (.point ⟨level, (x_raw : ℚ) / 100, (y_raw : ℚ) / 100⟩) := by
  have hx100 : ((x_raw : ℚ) / 100) * 100 = (x_raw : ℚ) :=
    div_mul_cancel₀ _ (by norm_num)
  have hy100 : ((y_raw : ℚ) / 100) * 100 = (y_raw : ℚ) :=
    div_mul_cancel₀ _ (by norm_num)
  have hdata : (PointLocation.location_id
      ⟨level, (x_raw : ℚ) / 100, (y_raw : ℚ) / 100⟩).data =
      'c' :: ':' :: (level.name.data ++ ':' :: (natToDec x_raw ++ ':' :: natToDec y_raw)) := by
    rw [location_id_data, hx100, hy100, pyFormatInt_natCast, pyFormatInt_natCast]
  have hmatch : matchCoordL (PointLocation.location_id
      ⟨level, (x_raw : ℚ) / 100, (y_raw : ℚ) / 100⟩).data
      = some (level.name.data, natToDec x_raw, natToDec y_raw) := by
    rw [hdata]
    exact matchCoordL_build _ _ _ hne hwf (natToDec_ne_nil _) (natToDec_all_digit _)
      (natToDec_ne_nil _) (natToDec_all_digit _)
  have hmc : matchCoord (PointLocation.location_id
      ⟨level, (x_raw : ℚ) / 100, (y_raw : ℚ) / 100⟩)
      = some (level.name, String.mk (natToDec x_raw), String.mk (natToDec y_raw)) := by
    simp [matchCoord, hmatch, string_mk_data]
  have hpx : pyIntOfString (String.mk (natToDec x_raw)) = some x_raw := by
    rw [pyIntOfString_digits (natToDec_ne_nil _) (natToDec_all_digit _), decToNat_natToDec]
  have hpy : pyIntOfString (String.mk (natToDec y_raw)) = some y_raw := by
    rw [pyIntOfString_digits (natToDec_ne_nil _) (natToDec_all_digit _), decToNat_natToDec]
  simp only [get_location, get_locationE, hmc, hlev, hpx, hpy]

/-- Environment used to instantiate the resolution theorems. -/
def envLevels : Env Unit where
  levels := fun s => if s = "ground" then some ⟨"ground", false⟩ else none
  areas := []
  groups := []
  areaAccess := fun _ => true
  groupAccess := fun _ => true

/-- Witness for C1 at level `ground` and raw coordinates `(150, 250)`. -/
theorem coord_roundtrip_witness :
    get_location envLevels
      (PointLocation.location_id ⟨⟨"ground", false⟩, (150 : ℚ) / 100, (250 : ℚ) / 100⟩)
      = some (.point ⟨⟨"ground", false⟩, (150 : ℚ) / 100, (250 : ℚ) / 100⟩) := by
  have := coord_roundtrip envLevels ⟨"ground", false⟩ 150 250
    (by decide) (by decide) (by decide)
  simpa using this

/-! ## Claim C10: malformed coordinate identifiers fall through -/

theorem pyStartswith_c_not_g (name : String) (h : pyStartswith name "c:" = true) :
    pyStartswith name "g:" = false := by
  unfold pyStartswith at h ⊢
  cases hd : name.data with
  | nil => rw [hd] at h; exact absurd h (by decide)
  | cons d ds =>
    rw [hd] at h
    simp only [leadsWith, Bool.and_eq_true, decide_eq_true_eq] at h
    obtain ⟨h1, h2⟩ := h
    subst h1
    simp [leadsWith]

/-- C10: an identifier that starts with `c:` but fails the full
coordinate pattern does not short-circuit to NotFound: `get_location`
falls through to the plain `AreaLocation` lookup with the entire string
(still carrying the `c:` prefix) as the area name. -/
theorem coordlike_fallthrough (env : Env γ) (name : String)
    (hc : pyStartswith name "c:" = true) (hm : matchCoord name = none) :
    get_location env name =
      (((env.areas.filter (fun a => a.name = name)).filter env.areaAccess).head?).map .area := by
  simp only [get_location, get_locationE, hm, pyStartswith_c_not_g name hc,
    Bool.false_eq_true, if_false]

/-- Store holding an `AreaLocation` whose name literally starts with
`c:` but cannot parse as a coordinate (uppercase level field). -/
def envOddArea : Env Unit where
  levels := fun _ => none
  areas := [⟨"c:FOO:1:2", ["Odd"], .poi, "ground", (), true, true⟩]
  groups := []
  areaAccess := fun _ => true
  groupAccess := fun _ => true

/-- Witness for C10: `c:FOO:1:2` resolves to the area of that name. -/
theorem coordlike_fallthrough_witness :
    pyStartswith "c:FOO:1:2" "c:" = true ∧
    get_location envOddArea "c:FOO:1:2" =
      some (.area ⟨"c:FOO:1:2", ["Odd"], .poi, "ground", (), true, true⟩) := by
  refine ⟨by decide, ?_⟩
  rw [coordlike_fallthrough envOddArea "c:FOO:1:2" (by decide) (by decide)]
  decide

/-! ## Claim C2: the direct match is not excluded from the fuzzy list -/

/-- A store with a single searchable area named `foo`. -/
def envFoo : Env Unit where
  levels := fun _ => none
  areas := [⟨"foo", ["The Foo"], .room, "ground", (), true, true⟩]
  groups := []
  areaAccess := fun _ => true
  groupAccess := fun _ => true

/-- C2 (evaluation at the failing input): searching for `foo` when the
direct resolution finds the area `foo` returns that area twice — once as
the direct match and once in the fuzzy area sub-list — because the
source discards the result of `queryset.exclude(name=location.name)`. -/
theorem search_duplicates_direct_match :
    search_location envFoo "foo" =
      [.area ⟨"foo", ["The Foo"], .room, "ground", (), true, true⟩,
       .area ⟨"foo", ["The Foo"], .room, "ground", (), true, true⟩] := by
  decide

/-! ## Claim C3: ordering of `_get_in_areas` -/

theorem pairwise_flatMap {α β : Type} {R : α → α → Prop} {f : β → List α} {l : List β}
    (h1 : ∀ b ∈ l, List.Pairwise R (f b))
    (h2 : List.Pairwise (fun b c => ∀ x ∈ f b, ∀ y ∈ f c, R x y) l) :
    List.Pairwise R (l.flatMap f) := by
  induction l with
  | nil => simp
  | cons b l ih =>
    rw [List.flatMap_cons, List.pairwise_append]
    rw [List.pairwise_cons] at h2
    refine ⟨h1 b (by simp), ih (fun c hc => h1 c (by simp [hc])) h2.2, ?_⟩
    intro x hx y hy
    obtain ⟨c, hc, hyc⟩ := List.mem_flatMap.mp hy
    exact h2.1 c hc x hx y hyc

theorem mem_bucket {γ : Type} {store : List (AreaLocation γ)} {t : LocationType}
    {lv : String} {x : AreaLocation γ}
    (hx : x ∈ store.filter (fun a => decide (a.location_type = t ∧ a.level = lv))) :
    x.location_type = t ∧ x.level = lv := by
  have := (List.mem_filter.mp hx).2
  simpa using this

theorem scan_pairwise (T : LocationType) :
    List.Pairwise (fun a b => get_sort_key b ≤ get_sort_key a)
      ((LOCATION_TYPES_ORDER.take (get_sort_key T)).reverse) := by
  cases T <;> decide

/-- C3 (amended): the sequence returned by `_get_in_areas` is ordered
finest-applicable-first: every element appearing earlier has a location
type of granularity ordinal greater than or equal to that of every later
element (the scan runs from the ordinal just below the area's own down
to 0, appending matches as it goes). -/
theorem in_areas_finest_first (G : GeomOps γ) (store : List (AreaLocation γ))
    (self : AreaLocation γ) :
    List.Pairwise
      (fun a b => get_sort_key b.location_type ≤ get_sort_key a.location_type)
      (_get_in_areas G store self) := by
  unfold _get_in_areas
  refine pairwise_flatMap ?_ ?_
  · intro t _
    refine List.pairwise_of_forall_mem_list ?_
    intro a ha b hb
    have hta := (mem_bucket (List.mem_of_mem_filter ha)).1
    have htb := (mem_bucket (List.mem_of_mem_filter hb)).1
    rw [hta, htb]
  · refine (scan_pairwise self.location_type).imp ?_
    intro t u htu x hx y hy
    have htx := (mem_bucket (List.mem_of_mem_filter hx)).1
    have hty := (mem_bucket (List.mem_of_mem_filter hy)).1
    rw [htx, hty]
    exact htu

/-- Concrete geometry provider on exact rationals: a geometry is its own
area, intersection is the minimum. -/
def GeomQ : GeomOps ℚ := ⟨fun g => g, fun g h => min g h⟩

/-- A level-typed area covering the whole floor. -/
def lvlArea3 : AreaLocation ℚ := ⟨"groundarea", [], .level, "ground", 1, true, true⟩

/-- An area-typed area covering the whole floor. -/
def bldg3 : AreaLocation ℚ := ⟨"building", [], .area, "ground", 1, true, true⟩

/-- A room fully inside both areas above. -/
def room3 : AreaLocation ℚ := ⟨"room1", [], .room, "ground", 1, true, true⟩

/-- The store for the C3 counterexample, in store order. -/
def storeNested : List (AreaLocation ℚ) := [lvlArea3, bldg3, room3]

/-- C3 counterexample: for `room1`, `_get_in_areas` returns the
area-typed enclosure (the finer one, ordinal 1) before the level-typed
enclosure (the coarser one, ordinal 0), so an enclosing area of coarser
location type does not appear before every finer one. -/
theorem in_areas_not_coarsest_first :
    ¬ List.Pairwise
      (fun a b => get_sort_key a.location_type ≤ get_sort_key b.location_type)
      (_get_in_areas GeomQ storeNested room3) := by
  have he : _get_in_areas GeomQ storeNested room3 = [bldg3, lvlArea3] := by
    norm_num [_get_in_areas, containTest, LOCATION_TYPES_ORDER, get_sort_key,
      lvlArea3, bldg3, room3, storeNested, GeomQ, List.filter, List.flatMap]
  rw [he]
  decide

/-! ## Claim C4: the containment threshold is a strict boundary -/

theorem mem_scan_of_lt {t T : LocationType} (h : get_sort_key t < get_sort_key T) :
    t ∈ (LOCATION_TYPES_ORDER.take (get_sort_key T)).reverse := by
  cases t <;> cases T <;> first
    | exact absurd h (by decide)
    | decide

/-- C4: a candidate of strictly coarser type on the same level is in the
result of `_get_in_areas` exactly when its overlap ratio strictly exceeds
`0.99`; in particular a ratio of exactly `99/100` is excluded and
`9901/10000` is included (see the witness). -/
theorem containment_threshold_strict (G : GeomOps γ) (store : List (AreaLocation γ))
    (self cand : AreaLocation γ) (hmem : cand ∈ store)
    (htype : get_sort_key cand.location_type < get_sort_key self.location_type)
    (hlevel : cand.level = self.level)
    (_hpos : 0 < G.area self.geometry) :
    cand ∈ _get_in_areas G store self ↔
      G.area (G.intersection cand.geometry self.geometry) / G.area self.geometry
        > 99 / 100 := by
  unfold _get_in_areas
  rw [List.mem_flatMap]
  constructor
  · rintro ⟨t, _, hc⟩
    have hcond := (List.mem_filter.mp hc).2
    simp only [containTest, decide_eq_true_eq] at hcond
    exact hcond.2
  · intro hratio
    refine ⟨cand.location_type, mem_scan_of_lt htype, ?_⟩
    have hia : G.area (G.intersection cand.geometry self.geometry) ≠ 0 := by
      intro h0
      rw [h0, zero_div] at hratio
      norm_num at hratio
    refine List.mem_filter.mpr ⟨List.mem_filter.mpr ⟨hmem, by simp [hlevel]⟩, ?_⟩
    simp [containTest, hia, hratio]

/-- An area of 10000 square units. -/
def selfBig : AreaLocation ℚ := ⟨"self", [], .room, "ground", 10000, true, true⟩

/-- A coarser candidate overlapping 9901 of the 10000 units. -/
def candIn : AreaLocation ℚ := ⟨"in", [], .area, "ground", 9901, true, true⟩

/-- A coarser candidate overlapping exactly 9900 of the 10000 units. -/
def candOut : AreaLocation ℚ := ⟨"out", [], .area, "ground", 9900, true, true⟩

/-- The store for the C4 witness. -/
def storeThreshold : List (AreaLocation ℚ) := [candIn, candOut, selfBig]

/-- Witness for C4: overlap ratio `9901/10000` is included and exactly
`99/100` is excluded. -/
theorem containment_threshold_strict_witness :
    candIn ∈ _get_in_areas GeomQ storeThreshold selfBig ∧
    candOut ∉ _get_in_areas GeomQ storeThreshold selfBig := by
  constructor
  · refine (containment_threshold_strict GeomQ storeThreshold selfBig candIn
      (by decide) (by decide) (by decide) (by norm_num [GeomQ, selfBig])).mpr ?_
    show GeomQ.area (GeomQ.intersection candIn.geometry selfBig.geometry)
      / GeomQ.area selfBig.geometry > 99 / 100
    norm_num [GeomQ, candIn, selfBig, min_def]
  · intro hmem
    have hratio := (containment_threshold_strict GeomQ storeThreshold selfBig candOut
      (by decide) (by decide) (by decide) (by norm_num [GeomQ, selfBig])).mp hmem
    rw [show GeomQ.area (GeomQ.intersection candOut.geometry selfBig.geometry)
      / GeomQ.area selfBig.geometry = 99 / 100 from by
        norm_num [GeomQ, candOut, selfBig, min_def]] at hratio
    norm_num at hratio

/-! ## Claim C5: zero-area areas have no enclosures and no division -/

theorem filterOpt_all_false {α : Type} {p : α → Option Bool} {l : List α}
    (h : ∀ a ∈ l, p a = some false) : filterOpt p l = some [] := by
  induction l with
  | nil => rfl
  | cons a l ih =>
    have ha := h a (by simp)
    have hl := ih (fun b hb => h b (by simp [hb]))
    simp [filterOpt, ha, hl]

/-- C5: when the area's own geometry has zero area, `_get_in_areas`
returns the empty sequence, and the guarded evaluation performs no
division by zero (under the geometry axiom that an intersection's area is
non-negative and bounded by the second operand's area, every candidate's
intersection area is zero, so the truthiness short-circuit fires before
the division). -/
theorem zero_area_no_enclosures (G : GeomOps γ) (store : List (AreaLocation γ))
    (self : AreaLocation γ)
    (hax : ∀ g h : γ, 0 ≤ G.area (G.intersection g h) ∧
      G.area (G.intersection g h) ≤ G.area h)
    (hzero : G.area self.geometry = 0) :
    _get_in_areasChecked G store self = some [] ∧ _get_in_areas G store self = [] := by
  have hia : ∀ a : AreaLocation γ,
      G.area (G.intersection a.geometry self.geometry) = 0 := by
    intro a
    have h1 := (hax a.geometry self.geometry).1
    have h2 := (hax a.geometry self.geometry).2
    rw [hzero] at h2
    linarith
  constructor
  · unfold _get_in_areasChecked
    refine filterOpt_all_false ?_
    intro a _
    simp [containTestChecked, hia a]
  · unfold _get_in_areas
    rw [List.flatMap_eq_nil_iff]
    intro t _
    rw [List.filter_eq_nil_iff]
    intro a _
    simp [containTest, hia a]

/-- Concrete geometry provider on natural-number cell counts: the area is
the (non-negative) count cast to the rationals, intersection is the
minimum; this satisfies the geometry axiom of C5. -/
def GeomN : GeomOps ℕ := ⟨fun n => (n : ℚ), fun g h => min g h⟩

/-- An area with zero-area geometry. -/
def zeroArea : AreaLocation ℕ := ⟨"empty", [], .room, "ground", 0, true, true⟩

/-- A coarser candidate on the same level. -/
def bigArea : AreaLocation ℕ := ⟨"big", [], .area, "ground", 5, true, true⟩

/-- The store for the C5 witness. -/
def storeZero : List (AreaLocation ℕ) := [bigArea, zeroArea]

/-- Witness for C5 at a zero-area room with a coarser candidate. -/
theorem zero_area_no_enclosures_witness :
    _get_in_areasChecked GeomN storeZero zeroArea = some [] ∧
    _get_in_areas GeomN storeZero zeroArea = [] := by
  refine zero_area_no_enclosures GeomN storeZero zeroArea ?_ ?_
  · intro g h
    exact ⟨Nat.cast_nonneg _, Nat.cast_le.mpr (min_le_right g h)⟩
  · simp [GeomN, zeroArea]

/-! ## Claim C6: the search token filter is conjunctive -/

theorem mem_filter_words_iff {α : Type} (getName : α → String)
    (getTitles : α → List String) :
    ∀ (words : List String) (qs : List α) (e : α),
    e ∈ filter_words getName getTitles qs words ↔
      e ∈ qs ∧ ∀ w ∈ words,
        (icontains (getName e) w
          || (getTitles e).any (fun t => icontains t w)) = true := by
  intro words
  induction words with
  | nil => intro qs e; simp [filter_words]
  | cons w ws ih =>
    intro qs e
    have hstep : filter_words getName getTitles qs (w :: ws) =
        filter_words getName getTitles
          (qs.filter (fun e => icontains (getName e) w
            || (getTitles e).any (fun t => icontains t w))) ws := rfl
    rw [hstep, ih]
    simp only [List.mem_filter, List.forall_mem_cons, and_assoc]

/-- C6: an entity passes `filter_words` exactly when every token of the
query (split on single spaces, first 10 tokens kept) occurs
case-insensitively in its name or in some title string; an entity missing
any one token is excluded. -/
theorem filter_words_conjunctive {α : Type} (getName : α → String)
    (getTitles : α → List String) (qs : List α) (q : String) (e : α) :
    e ∈ filter_words getName getTitles qs (tokenize q) ↔
      e ∈ qs ∧ ∀ w ∈ tokenize q,
        (icontains (getName e) w
          || (getTitles e).any (fun t => icontains t w)) = true :=
  mem_filter_words_iff getName getTitles (tokenize q) qs e

/-! ## Claims C8 and C9: route constraint translation -/

/-- C8: for settings drawn from `{yes, up, down, no}`, the allowed
connection-type set always contains the empty tag, and each feature's
directional tags are present exactly as its own setting dictates: `yes`
contributes both directions, `up` only `_up`, `down` only `_down`, and
`no` neither — in particular `stairs = no` excludes both `stairs_up` and
`stairs_down`. -/
theorem allowed_ctypes_spec (s e v : String)
    (hs : s ∈ settingValues) (he : e ∈ settingValues) (hv : v ∈ settingValues) :
    ("" ∈ allowed_ctypes s e v)
    ∧ (s = "no" → "stairs_up" ∉ allowed_ctypes s e v
        ∧ "stairs_down" ∉ allowed_ctypes s e v)
    ∧ ("stairs_up" ∈ allowed_ctypes s e v ↔ s = "yes" ∨ s = "up")
    ∧ ("stairs_down" ∈ allowed_ctypes s e v ↔ s = "yes" ∨ s = "down")
    ∧ ("escalator_up" ∈ allowed_ctypes s e v ↔ e = "yes" ∨ e = "up")
    ∧ ("escalator_down" ∈ allowed_ctypes s e v ↔ e = "yes" ∨ e = "down")
    ∧ ("elevator_up" ∈ allowed_ctypes s e v ↔ v = "yes" ∨ v = "up")
    ∧ ("elevator_down" ∈ allowed_ctypes s e v ↔ v = "yes" ∨ v = "down") := by
  simp only [settingValues, List.mem_cons, List.mem_singleton,
    List.not_mem_nil, or_false] at hs he hv
  rcases hs with rfl | rfl | rfl | rfl <;>
    rcases he with rfl | rfl | rfl | rfl <;>
      rcases hv with rfl | rfl | rfl | rfl <;> decide

/-- Witness for C8 at `stairs=no, escalators=yes, elevators=down`. -/
theorem allowed_ctypes_spec_witness :
    ("" ∈ allowed_ctypes "no" "yes" "down")
    ∧ ("no" = "no" → "stairs_up" ∉ allowed_ctypes "no" "yes" "down"
        ∧ "stairs_down" ∉ allowed_ctypes "no" "yes" "down")
    ∧ ("stairs_up" ∈ allowed_ctypes "no" "yes" "down" ↔ "no" = "yes" ∨ "no" = "up")
    ∧ ("stairs_down" ∈ allowed_ctypes "no" "yes" "down" ↔ "no" = "yes" ∨ "no" = "down")
    ∧ ("escalator_up" ∈ allowed_ctypes "no" "yes" "down" ↔ "yes" = "yes" ∨ "yes" = "up")
    ∧ ("escalator_down" ∈ allowed_ctypes "no" "yes" "down" ↔ "yes" = "yes" ∨ "yes" = "down")
    ∧ ("elevator_up" ∈ allowed_ctypes "no" "yes" "down" ↔ "down" = "yes" ∨ "down" = "up")
    ∧ ("elevator_down" ∈ allowed_ctypes "no" "yes" "down" ↔ "down" = "yes" ∨ "down" = "down") :=
  allowed_ctypes_spec "no" "yes" "down" (by decide) (by decide) (by decide)

/-- C9: for every feature name and setting value in `{yes, up, down, no}`,
`reverse_ctypes` applied to the tags generated by `get_ctypes` recovers
exactly the original setting. -/
theorem ctypes_roundtrip (name v : String) (hv : v ∈ settingValues) :
    reverse_ctypes (get_ctypes name v) name = v := by
  have hassoc : ∀ a b c : String, a ++ b ++ c = a ++ (b ++ c) := by
    intro a b c
    have hd : (a ++ b ++ c).data = (a ++ (b ++ c)).data := by
      simp [string_data_append]
    calc a ++ b ++ c = String.mk (a ++ b ++ c).data := (string_mk_data _).symm
      _ = String.mk (a ++ (b ++ c)).data := by rw [hd]
      _ = a ++ (b ++ c) := string_mk_data _
  have hup : name ++ "_" ++ "up" = name ++ "_up" := by
    rw [hassoc]
    rw [show ("_" : String) ++ "up" = "_up" from by decide]
  have hdown : name ++ "_" ++ "down" = name ++ "_down" := by
    rw [hassoc]
    rw [show ("_" : String) ++ "down" = "_down" from by decide]
  have hud : (name ++ "_up") ≠ (name ++ "_down") := by
    intro h
    have := string_append_right_inj name h
    exact absurd this (by decide)
  have hdu : (name ++ "_down") ≠ (name ++ "_up") := fun h => hud h.symm
  simp only [settingValues, List.mem_cons, List.mem_singleton,
    List.not_mem_nil, or_false] at hv
  rcases hv with rfl | rfl | rfl | rfl <;>
    simp [reverse_ctypes, get_ctypes, ctype_mapping, hup, hdown, hud, hdu]

/-- Witness for C9 at feature `stairs` and setting `no`. -/
theorem ctypes_roundtrip_witness :
    reverse_ctypes (get_ctypes "stairs" "no") "stairs" = "no" :=
  ctypes_roundtrip "stairs" "no" (by decide)

end C3nav
